import Mathlib

/-!
# Verification of the Cookies_Inventory forecast engine

A shallow embedding, in Lean 4, of the algorithmic core of the
Cookies_Inventory repository, together with proofs of the behavioural
properties claimed for it.

Modelling conventions:

* Python `float` quantities are modelled by `ℚ` (the spec states the
  arithmetic laws "floating-point tolerance aside").
* Python `datetime` values (always used at day granularity, via
  `normalize_date`) are modelled by their proleptic-Gregorian ordinal
  (`datetime.toordinal`), an `Int`; `timedelta(days = k)` is `+ k`.
* Python `dict`s are modelled by association lists together with the
  lookup/insert helpers below; `defaultdict` accumulation is modelled by
  `addToQMap`/`addToSched`.
* Worksheet data (`GoogleSheetsHelper.read_worksheet`, which returns
  `worksheet.get_all_values()`) is a list of rows of *strings*, modelled by
  `RawTable`.  A failed worksheet read (an exception escaping
  `read_worksheet`) is modelled by the `Except.error` case of the argument
  given to each reader.
* Logging is side-effect free for the data flow and is not modelled.
-/

/-- A Python value as it may reach `parse_number` / `parse_float`:
`None`, an `int`, a `float`, or a `str`.  `float` carries a *finite*
float, modelled as an exact rational; the non-finite floats `inf` and
`nan` — on which the source's integer variant raises uncaught errors —
are outside this model, and the claims about the parsers are scoped
accordingly (see C9). -/
inductive PyVal where
  | none : PyVal
  | int : Int → PyVal
  | float : ℚ → PyVal
  | str : String → PyVal
deriving DecidableEq

/-- ASCII whitespace, as stripped by Python `str.strip()`. -/
def isPySpace (c : Char) : Bool :=
  c = ' ' ∨ c = '\t' ∨ c = '\n' ∨ c = '\r' ∨ c = '\x0b' ∨ c = '\x0c'

/-- Strip leading and trailing whitespace from a character list. -/
def pyStripList (cs : List Char) : List Char :=
  ((cs.dropWhile isPySpace).reverse.dropWhile isPySpace).reverse

/-- Python `str.strip()` (leading/trailing whitespace removed; only ASCII
whitespace is modelled). -/
def pyStrip (s : String) : String := String.mk (pyStripList s.data)

/-- Value of a list of decimal digits, most significant first. -/
def digitsToNat (cs : List Char) : Nat :=
  cs.foldl (fun a c => a * 10 + (c.toNat - 48)) 0

/-- `cs` is a nonempty run of decimal digits. -/
def isDigitRun (cs : List Char) : Bool :=
  !cs.isEmpty && cs.all (·.isDigit)

/-- Strip one optional leading sign, returning the sign as `1` or `-1`. -/
def splitSign (cs : List Char) : Int × List Char :=
  match cs with
  | '+' :: rest => (1, rest)
  | '-' :: rest => (-1, rest)
  | rest => (1, rest)

/-- Split a character list at the first character satisfying `p`; the
matching character itself is dropped.  `none` when no character
matches. -/
def splitAtFirst (p : Char → Bool) : List Char → List Char × Option (List Char)
  | [] => ([], Option.none)
  | c :: rest =>
      if p c then ([], some rest)
      else
        ((c :: (splitAtFirst p rest).1), (splitAtFirst p rest).2)

/-- Split a character list on every occurrence of `sep` (Python
`str.split(sep)`). -/
def splitOnChar (sep : Char) : List Char → List (List Char)
  | [] => [[]]
  | c :: rest =>
      match splitOnChar sep rest with
      | [] => [[]]
      | h :: t => if c = sep then [] :: h :: t else (c :: h) :: t

/-- Model of Python `float(s)` on a string: optional sign, decimal digits
with an optional decimal point (at least one digit overall), and an
optional decimal exponent.  Returns `none` where Python raises
`ValueError`.

Fidelity limits: this model is exact only on plain signed decimal
numerals (sign/digits/dot, no exponent) whose value lies within the IEEE
double range — on that fragment its success/failure and value agree with
CPython (rounding to the nearest double idealised away, as everywhere in
this file).  Outside it, CPython differs: an overflowing magnitude (e.g.
`"1e400"`) yields the float `inf` rather than an exact rational, and the
`inf`/`nan` spellings and `_` digit separators, which CPython accepts,
are not modelled.  The C9 theorem therefore restricts its text conjuncts
to the faithful fragment via `plainDecimal` and `inDoubleRange`. -/
def pyFloatOfString (s : String) : Option ℚ :=
  let cs := (pyStrip s).toList
  let sgn := (splitSign cs).1
  let body := (splitSign cs).2
  let mant := (splitAtFirst (fun c => c = 'e' || c = 'E') body).1
  let expPart := (splitAtFirst (fun c => c = 'e' || c = 'E') body).2
  let ip := (splitAtFirst (fun c => c = '.') mant).1
  let fpOpt := (splitAtFirst (fun c => c = '.') mant).2
  let fp := fpOpt.getD []
  if ip.all (·.isDigit) && fp.all (·.isDigit) && !(ip.isEmpty && fp.isEmpty) then
    let mval : ℚ :=
      (digitsToNat ip : ℚ) + (digitsToNat fp : ℚ) / ((10 : ℚ) ^ fp.length)
    match expPart with
    | Option.none => some ((sgn : ℚ) * mval)
    | some ecs =>
        let esgn := (splitSign ecs).1
        let eds := (splitSign ecs).2
        if isDigitRun eds then
          some ((sgn : ℚ) * mval * (10 : ℚ) ^ (esgn * (digitsToNat eds : Int)))
        else Option.none
  else Option.none

/-- Model of Python `int(s)` on a string: optional sign, a nonempty run of
decimal digits.  Returns `none` where Python raises `ValueError`. -/
def pyIntOfString (s : String) : Option Int :=
  let cs := (pyStrip s).toList
  let sgn := (splitSign cs).1
  let ds := (splitSign cs).2
  if isDigitRun ds then some (sgn * (digitsToNat ds : Int)) else Option.none

/-- Python `int(q)` on a float: truncation toward zero. -/
def pyTrunc (q : ℚ) : Int := if q < 0 then ⌈q⌉ else ⌊q⌋

/-- `_parse_numeric_string` (calculate_cookie_inventory.py): remove
thousands-separator commas (`str.replace(',', '')`) and strip. -/
def parseNumericString (s : String) : String :=
  pyStrip (String.mk (s.data.filter (fun c => c ≠ ',')))

/-- `parse_number` (calculate_cookie_inventory.py): convert a value to an
integer; `None`/empty → 0, `int` → itself, `float` → truncated,
text → `int(float(text-without-commas))`, unparsable text → 0.

Fidelity limit: in the source, `int()` of an infinite or NaN float — such
as `int(float("1e400"))`, since `float` overflows to `inf` — raises an
`OverflowError` (or `ValueError` for NaN) that the
`except (ValueError, TypeError)` clause does not catch, so the function
is *not* exception-free.  This ℚ-valued model covers only the finite
paths; the C9 theorem scopes its text conjuncts to them. -/
def parse_number (value : PyVal) : Int :=
  match value with
  | PyVal.none => 0
  | PyVal.int n => n
  | PyVal.float q => pyTrunc q
  | PyVal.str s =>
      let vs := pyStrip s
      if vs = "" then 0
      else
        match pyFloatOfString (parseNumericString vs) with
        | some q => pyTrunc q
        | Option.none => 0

/-- `parse_float` (calculate_cookie_inventory.py): convert a value to a
real number; `None`/empty → 0, numeric → passthrough,
text → `float(text-without-commas)`, anything unparsable → 0. -/
def parse_float (value : PyVal) : ℚ :=
  match value with
  | PyVal.none => 0
  | PyVal.int n => (n : ℚ)
  | PyVal.float q => q
  | PyVal.str s =>
      let vs := pyStrip s
      if vs = "" then 0
      else
        match pyFloatOfString (parseNumericString vs) with
        | some q => q
        | Option.none => 0

/-- The text is a plain signed decimal numeral candidate: every character
is a digit, a sign or a decimal point.  On such text the model's
`pyFloatOfString` accepts exactly the strings CPython `float()` accepts
and computes the same value; the spellings on which the two differ
(exponents, `inf`/`nan`, `_` separators) all contain characters outside
this set. -/
def plainDecimal (s : String) : Bool :=
  s.data.all (fun c => c.isDigit || c = '+' || c = '-' || c = '.')

/-- `|q| < 2 ^ 1023`, stated over the numerator and denominator so that it
is kernel-decidable: a sufficient bound keeping the value strictly inside
the IEEE double range, where CPython's float conversion cannot overflow
to infinity. -/
abbrev inDoubleRange (q : ℚ) : Prop :=
  q.num.natAbs < 2 ^ 1023 * q.den

/-- `n` is an integer CPython can convert to a finite float (a sufficient
bound strictly inside the double range). -/
abbrev intInDoubleRange (n : Int) : Prop :=
  n.natAbs < 2 ^ 1023

/-- `get_unit_conversion_factor` (sync_inventory_from_erp.py): factor from
the last character of the item code (upper-cased), via the fixed table
`{C: 1, D: 2, H: 8, F: 4, A: 1}` with default 1; empty code → 1. -/
def get_unit_conversion_factor (cookie_code : String) : ℚ :=
  if cookie_code = "" then 1
  else
    let last_char := cookie_code.back.toUpper
    if last_char = 'C' then 1
    else if last_char = 'D' then 2
    else if last_char = 'H' then 8
    else if last_char = 'F' then 4
    else if last_char = 'A' then 1
    else 1

/-- `convert_to_pieces` (sync_inventory_from_erp.py). -/
def convert_to_pieces (qty : ℚ) (cookie_code : String) : ℚ :=
  qty * get_unit_conversion_factor cookie_code

/-- `normalize_cookie_code` (sync_inventory_from_erp.py): codes shorter
than two characters are returned unchanged; otherwise a trailing
`D`/`H`/`F`/`A` (case-insensitively) is replaced by `C`. -/
def normalize_cookie_code (cookie_code : String) : String :=
  if cookie_code.length < 2 then cookie_code
  else
    let last_char := cookie_code.back.toUpper
    if last_char = 'D' ∨ last_char = 'H' ∨ last_char = 'F' ∨ last_char = 'A' then
      cookie_code.dropRight 1 ++ "C"
    else cookie_code

/-- The unit-conversion table exactly as the spec words it: the factor
depends only on the last character, case-insensitively; `C`/`A` → 1,
`D` → 2, `F` → 4, `H` → 8, any other or absent suffix → 1.  (Spec-side
definition, for comparison with `get_unit_conversion_factor`.) -/
def specSuffixFactor (c : Char) : ℚ :=
  if c.toUpper = 'C' ∨ c.toUpper = 'A' then 1
  else if c.toUpper = 'D' then 2
  else if c.toUpper = 'F' then 4
  else if c.toUpper = 'H' then 8
  else 1

/-- Spec-side conversion factor of a whole code: `specSuffixFactor` of the
last character, 1 for the empty code. -/
def specFactor (cookie_code : String) : ℚ :=
  if cookie_code = "" then 1 else specSuffixFactor cookie_code.back

/-- The last character of `code` is one of the packaging suffixes
`D`/`H`/`F`/`A`, case-insensitively (spec-side predicate). -/
def hasPackagingSuffix (code : String) : Bool :=
  code ≠ "" &&
    (code.back.toUpper = 'D' || code.back.toUpper = 'H' ||
     code.back.toUpper = 'F' || code.back.toUpper = 'A')

/-! ## Dates

Python `datetime` values at day granularity are modelled by their
proleptic-Gregorian ordinal (`datetime.toordinal()`, with day 1 =
0001-01-01), an `Int`.  `timedelta(days = k)` is then `+ k` and date
comparison is `Int` comparison. -/

/-- Gregorian leap-year test. -/
def isLeapYear (y : Nat) : Bool :=
  y % 4 = 0 && (y % 100 ≠ 0 || y % 400 = 0)

/-- Number of days in month `m` of year `y` (1-based month). -/
def daysInMonth (y m : Nat) : Nat :=
  if m = 2 then (if isLeapYear y then 29 else 28)
  else if m = 4 ∨ m = 6 ∨ m = 9 ∨ m = 11 then 30
  else 31

/-- Days in year `y` strictly before month `m` (1-based). -/
def daysBeforeMonth (y m : Nat) : Nat :=
  ((List.range m).filter (fun k => 1 ≤ k)).foldl (fun a k => a + daysInMonth y k) 0

/-- `datetime(y, m, d).toordinal()`: day count since 0000-12-31 in the
proleptic Gregorian calendar (so 0001-01-01 is day 1). -/
def toOrdinal (y m d : Nat) : Int :=
  (365 * (y - 1) + (y - 1) / 4 - (y - 1) / 100 + (y - 1) / 400
    + daysBeforeMonth y m + d : Nat)

/-- `datetime(y, m, d)` for `Int` arguments: `some` ordinal when the date
is valid (year 1–9999, month 1–12, day within the month), `none` where
Python raises `ValueError`. -/
def mkDatetime (y m d : Int) : Option Int :=
  if 1 ≤ y ∧ y ≤ 9999 ∧ 1 ≤ m ∧ m ≤ 12 ∧ 1 ≤ d ∧ (d : Int) ≤ (daysInMonth y.toNat m.toNat : Int)
  then some (toOrdinal y.toNat m.toNat d.toNat)
  else Option.none

/-- `normalize_date` (calculate_cookie_inventory.py): truncate to day
granularity.  Ordinals already carry no time of day, so this is the
identity. -/
def normalize_date (d : Int) : Int := d

/-- `parse_date` (calculate_cookie_inventory.py) on a worksheet cell
(always a string here): split on `/`, expect three integer parts, build a
`datetime`; any failure yields `none` (Python logs a warning and returns
`None`).  The `isinstance(date_str, datetime)` branch never fires for
worksheet data and is not modelled. -/
def parse_date (date_str : String) : Option Int :=
  let s := pyStrip date_str
  match splitOnChar '/' s.data with
  | [p1, p2, p3] =>
      match pyIntOfString (String.mk p1), pyIntOfString (String.mk p2),
          pyIntOfString (String.mk p3) with
      | some y, some m, some d => mkDatetime y m d
      | _, _, _ => Option.none
  | _ => Option.none

/-! ## Dict helpers -/

/-- A Python `Dict[str, float]`. -/
abbrev QMap := List (String × ℚ)

/-- A Python `Dict[datetime, Dict[str, float]]` (a schedule). -/
abbrev Sched := List (Int × QMap)

/-- A Python `Dict[str, Dict[str, float]]` (the BOM). -/
abbrev Bom := List (String × QMap)

/-- A Python `Dict[str, str]` (the item-name reference map). -/
abbrev NameMap := List (String × String)

/-- `m.get(k, dflt)` on a string-keyed map. -/
def dictGet (m : QMap) (k : String) (dflt : ℚ) : ℚ :=
  match m.find? (fun p => p.1 = k) with
  | some p => p.2
  | Option.none => dflt

/-- `m.get(k, dflt)` on a string-keyed string map. -/
def nameGet (m : NameMap) (k : String) : String :=
  match m.find? (fun p => p.1 = k) with
  | some p => p.2
  | Option.none => ""

/-- `bom.get`-style lookup of a box's component map (`box_code in bom`
plus `bom[box_code]`). -/
def bomFind (bom : Bom) (box : String) : Option QMap :=
  match bom.find? (fun p => p.1 = box) with
  | some p => some p.2
  | Option.none => Option.none

/-- `defaultdict(float)` accumulation `m[k] += v`: add to the entry in
place, or append a fresh entry. -/
def addToQMap : QMap → String → ℚ → QMap
  | [], k, v => [(k, v)]
  | (k', v') :: rest, k, v =>
      if k' = k then (k', v' + v) :: rest else (k', v') :: addToQMap rest k v

/-- `defaultdict(lambda: defaultdict(float))` accumulation
`s[d][k] += v`. -/
def addToSched : Sched → Int → String → ℚ → Sched
  | [], d, k, v => [(d, addToQMap [] k v)]
  | (d', m) :: rest, d, k, v =>
      if d' = d then (d', addToQMap m k v) :: rest
      else (d', m) :: addToSched rest d k v

/-- `sched.get(date, {}).get(code, 0.0)`. -/
def schedGet (s : Sched) (d : Int) (c : String) : ℚ :=
  match s.find? (fun p => p.1 = d) with
  | some p => dictGet p.2 c 0
  | Option.none => 0

/-! ## The forecast engine (calculate_cookie_inventory.py) -/

/-- `LEAD_TIME_DAYS` (calculate_cookie_inventory.py). -/
def LEAD_TIME_DAYS : Int := 2

/-- `FORECAST_DAYS` (calculate_cookie_inventory.py). -/
def FORECAST_DAYS : Nat := 21

/-- The running `current_inventory` dict, accessed only through
`.get(code, 0.0)` and item assignment, modelled as a total function with
the default built in. -/
abbrev InvMap := String → ℚ

/-- One output row of the forecast (`create_detail_row`'s list, with the
date kept as an ordinal rather than a formatted string). -/
structure DetailRow where
  date : Int
  cookie_code : String
  cookie_name : String
  beginning_qty : ℚ
  demand_qty : ℚ
  completion_qty : ℚ
  ending_qty : ℚ
  is_shortage : String
  shortage_qty : ℚ
deriving DecidableEq

/-- `create_detail_row` (calculate_cookie_inventory.py): the row stores,
in order, date, code, name, opening, demand, completion, ending, the
shortage flag `'是'`/`'否'`, and `abs(ending)` when ending is negative
else `0`. -/
def create_detail_row (date : Int) (cookie_code cookie_name : String)
    (beginning_qty completion_qty demand_qty ending_qty : ℚ) : DetailRow :=
  { date := date
    cookie_code := cookie_code
    cookie_name := cookie_name
    beginning_qty := beginning_qty
    demand_qty := demand_qty
    completion_qty := completion_qty
    ending_qty := ending_qty
    is_shortage := if ending_qty < 0 then "是" else "否"
    shortage_qty := if ending_qty < 0 then |ending_qty| else 0 }

/-- `calculate_daily_inventory` (calculate_cookie_inventory.py): returns
the tuple `(beginning, completion, demand, ending)` and the updated
`current_inventory` (the Python function mutates its argument). -/
def calculate_daily_inventory (date : Int) (cookie_code : String)
    (current_inventory : InvMap) (production_schedule assembly_schedule : Sched) :
    (ℚ × ℚ × ℚ × ℚ) × InvMap :=
  let date_key := normalize_date date
  let beginning_qty := current_inventory cookie_code
  let demand_qty := schedGet assembly_schedule date_key cookie_code
  let completion_qty := schedGet production_schedule date_key cookie_code
  let ending_qty := beginning_qty - demand_qty + completion_qty
  ((beginning_qty, completion_qty, demand_qty, ending_qty),
   fun c => if c = cookie_code then ending_qty else current_inventory c)

/-- `get_all_cookie_codes` (calculate_cookie_inventory.py): the set of
item codes appearing in opening inventory, any completion-schedule day, or
any consumption-schedule day — here the deduplicated list of those keys
(Python builds a `set`). -/
def get_all_cookie_codes (initial_inventory : QMap)
    (production_schedule assembly_schedule : Sched) : List String :=
  (initial_inventory.map Prod.fst
    ++ production_schedule.flatMap (fun p => p.2.map Prod.fst)
    ++ assembly_schedule.flatMap (fun p => p.2.map Prod.fst)).dedup

/-- `sorted(all_cookies)`: the codes in lexicographic order. -/
def sortedCookieCodes (initial_inventory : QMap)
    (production_schedule assembly_schedule : Sched) : List String :=
  (get_all_cookie_codes initial_inventory production_schedule
      assembly_schedule).insertionSort (· ≤ ·)

/-- The inner `for cookie_code in sorted(all_cookies)` loop of
`calculate_inventory_forecast`: emit one detail row per code, threading
`current_inventory` through. -/
def process_codes (date : Int) (codes : List String)
    (production_schedule assembly_schedule : Sched) (cookie_names : NameMap)
    (inv : InvMap) : List DetailRow × InvMap :=
  match codes with
  | [] => ([], inv)
  | c :: rest =>
      let r := calculate_daily_inventory date c inv production_schedule
        assembly_schedule
      let row := create_detail_row date c (nameGet cookie_names c)
        r.1.1 r.1.2.1 r.1.2.2.1 r.1.2.2.2
      let pr := process_codes date rest production_schedule assembly_schedule
        cookie_names r.2
      (row :: pr.1, pr.2)

/-- The outer `for day_offset in range(FORECAST_DAYS)` loop: day `k` uses
date `start + k`. -/
def process_days (n : Nat) (start : Int) (codes : List String)
    (production_schedule assembly_schedule : Sched) (cookie_names : NameMap)
    (inv : InvMap) : List DetailRow × InvMap :=
  match n with
  | 0 => ([], inv)
  | Nat.succ m =>
      let d := process_codes start codes production_schedule assembly_schedule
        cookie_names inv
      let rest := process_days m (start + 1) codes production_schedule
        assembly_schedule cookie_names d.2
      (d.1 ++ rest.1, rest.2)

/-- `calculate_inventory_forecast` (calculate_cookie_inventory.py):
initialise `current_inventory` from the opening-inventory map (missing
items read as 0), then run the day loop over the sorted code universe. -/
def calculate_inventory_forecast (initial_inventory : QMap)
    (production_schedule assembly_schedule : Sched) (today : Int)
    (cookie_names : NameMap) : List DetailRow :=
  let codes := sortedCookieCodes initial_inventory production_schedule
    assembly_schedule
  (process_days FORECAST_DAYS today codes production_schedule
    assembly_schedule cookie_names (fun k => dictGet initial_inventory k 0)).1

/-! ### Closed-form day-by-day inventory (for the proofs) -/

/-- One day's effect on the running inventory: every code in the universe
is advanced by `- demand + completion`; other keys are untouched. -/
def stepInv (codes : List String) (production_schedule assembly_schedule : Sched)
    (date : Int) (inv : InvMap) : InvMap :=
  fun c =>
    if c ∈ codes then
      inv c - schedGet assembly_schedule date c + schedGet production_schedule date c
    else inv c

/-- Iterate `stepInv` over `n` consecutive days starting at `start`. -/
def iterInv (codes : List String) (production_schedule assembly_schedule : Sched) :
    Nat → Int → InvMap → InvMap
  | 0, _, inv => inv
  | Nat.succ n, start, inv =>
      iterInv codes production_schedule assembly_schedule n (start + 1)
        (stepInv codes production_schedule assembly_schedule start inv)

/-- The inventory at the opening of day `k` of the forecast. -/
def dayInv (initial_inventory : QMap)
    (production_schedule assembly_schedule : Sched) (today : Int) (k : Nat) : InvMap :=
  iterInv (sortedCookieCodes initial_inventory production_schedule assembly_schedule)
    production_schedule assembly_schedule k today
    (fun c => dictGet initial_inventory c 0)

/-- The detail row the engine emits for code `c` on day `k`. -/
def rowAt (initial_inventory : QMap)
    (production_schedule assembly_schedule : Sched) (today : Int)
    (cookie_names : NameMap) (k : Nat) (c : String) : DetailRow :=
  create_detail_row (today + k) c (nameGet cookie_names c)
    (dayInv initial_inventory production_schedule assembly_schedule today k c)
    (schedGet production_schedule (today + k) c)
    (schedGet assembly_schedule (today + k) c)
    (dayInv initial_inventory production_schedule assembly_schedule today k c
      - schedGet assembly_schedule (today + k) c
      + schedGet production_schedule (today + k) c)

/-! ## The source-table readers (calculate_cookie_inventory.py)

`GoogleSheetsHelper.read_worksheet` returns `get_all_values()`: a list of
rows of strings, the first row being the headers.  Each reader takes an
`Except`-wrapped table: `Except.error` models an exception escaping the
worksheet read, `Except.ok` a successful read.  The Python guard
`if len(data) > 1` is omitted because iterating zero data rows already
yields the empty dict the guard would produce. -/

/-- A worksheet's contents: rows of cell strings, headers first. -/
abbrev RawTable := List (List String)

/-- A Python `Dict[str, int]` (the opening-inventory map). -/
abbrev IMap := List (String × Int)

/-- `defaultdict(int)` accumulation `m[k] += v`. -/
def addToIMap : IMap → String → Int → IMap
  | [], k, v => [(k, v)]
  | (k', v') :: rest, k, v =>
      if k' = k then (k', v' + v) :: rest else (k', v') :: addToIMap rest k v

/-- Plain dict assignment `m[k] = v`. -/
def qmapSet : QMap → String → ℚ → QMap
  | [], k, v => [(k, v)]
  | (k', v') :: rest, k, v =>
      if k' = k then (k', v) :: rest else (k', v') :: qmapSet rest k v

/-- Nested dict assignment `bom[box][cookie] = v`. -/
def bomSet : Bom → String → String → ℚ → Bom
  | [], box, cookie, v => [(box, qmapSet [] cookie v)]
  | (b, m) :: rest, box, cookie, v =>
      if b = box then (b, qmapSet m cookie v) :: rest
      else (b, m) :: bomSet rest box cookie v

/-- `get_header_index` (calculate_cookie_inventory.py):
`headers.index(name)` when present, else the given default (which may be
`-1`, hence the `Int` result). -/
def get_header_index (headers : List String) (header_name : String)
    (default : Int) : Int :=
  match headers.findIdx? (fun h => h = header_name) with
  | some i => (i : Int)
  | Option.none => default

/-- `row[i]` for an `Int` index known to be in range; out-of-range reads
(never reached under the source's length guards) give `""`. -/
def getCell (row : List String) (i : Int) : String :=
  if 0 ≤ i then row.getD i.toNat "" else ""

/-- Row loop of `read_initial_inventory`: for each row carrying the code
and quantity cells, skip blank codes and accumulate `parse_number` of the
quantity cell by item code (the warehouse column is only logged). -/
def read_initial_inventory_table (data : RawTable) : IMap :=
  match data with
  | [] => []
  | headers :: rows =>
      let code_idx := get_header_index headers "餅乾代號" 0
      let qty_idx := get_header_index headers "目前庫存數量" 2
      rows.foldl (fun acc row =>
        if max code_idx qty_idx < (row.length : Int) then
          let cookie_code := pyStrip (getCell row code_idx)
          if cookie_code = "" then acc
          else addToIMap acc cookie_code
            (parse_number (PyVal.str (getCell row qty_idx)))
        else acc) []

/-- `read_initial_inventory` (calculate_cookie_inventory.py).  NOTE: its
`try`/`except` *catches* a failed worksheet read — it logs a warning and
falls through to `dict(inventory)`, returning the empty map rather than
re-raising. -/
def read_initial_inventory (src : Except String RawTable) : IMap :=
  match src with
  | Except.error _ => []
  | Except.ok data => read_initial_inventory_table data

/-- Row loop of `read_bom`: keep rows with nonempty box and cookie codes
and positive per-box quantity; assignment semantics (a duplicate
(box, cookie) pair overwrites). -/
def read_bom_table (data : RawTable) : Bom :=
  match data with
  | [] => []
  | headers :: rows =>
      let box_idx := get_header_index headers "禮盒代號" 0
      let cookie_idx := get_header_index headers "餅乾代號" 1
      let qty_idx := get_header_index headers "每盒片數" 2
      rows.foldl (fun acc row =>
        if max box_idx (max cookie_idx qty_idx) < (row.length : Int) then
          let box_code := pyStrip (getCell row box_idx)
          let cookie_code := pyStrip (getCell row cookie_idx)
          let qty := parse_float (PyVal.str (getCell row qty_idx))
          if box_code ≠ "" ∧ cookie_code ≠ "" ∧ qty > 0 then
            bomSet acc box_code cookie_code qty
          else acc
        else acc) []

/-- `read_bom` (calculate_cookie_inventory.py): a failed worksheet read is
re-raised (`logger.error` then `raise`). -/
def read_bom (src : Except String RawTable) : Except String Bom :=
  match src with
  | Except.error e => Except.error e
  | Except.ok data => Except.ok (read_bom_table data)

/-- One row of `read_production_schedule`'s loop: skip rows that are too
short, have an unparsable start date, start before `today - 3`, have a
blank item code, or have non-positive parsed quantity; otherwise
accumulate the quantity under the completion date (the explicit
completion-date cell when present, nonempty and parsable, else start date
plus `LEAD_TIME_DAYS`). -/
def prodRowStep (today date_idx cookie_idx pieces_idx completion_idx : Int)
    (acc : Sched) (row : List String) : Sched :=
  if max date_idx (max cookie_idx pieces_idx) < (row.length : Int) then
    match parse_date (getCell row date_idx) with
    | Option.none => acc
    | some production_date =>
        if production_date < today - 3 then acc
        else
          let cookie_code := pyStrip (getCell row cookie_idx)
          if cookie_code = "" then acc
          else
            let qty_pieces := parse_float (PyVal.str (getCell row pieces_idx))
            if qty_pieces > 0 then
              let completion_date :=
                if 0 ≤ completion_idx ∧ completion_idx < (row.length : Int)
                    ∧ getCell row completion_idx ≠ "" then
                  match parse_date (getCell row completion_idx) with
                  | some custom => normalize_date custom
                  | Option.none =>
                      normalize_date (production_date + LEAD_TIME_DAYS)
                else normalize_date (production_date + LEAD_TIME_DAYS)
              addToSched acc completion_date cookie_code qty_pieces
            else acc
  else acc

/-- Row loop of `read_production_schedule`. -/
def read_production_schedule_table (data : RawTable) (today : Int) : Sched :=
  match data with
  | [] => []
  | headers :: rows =>
      let date_idx := get_header_index headers "日期" 0
      let cookie_idx := get_header_index headers "餅乾代號" 2
      let pieces_idx := get_header_index headers "生產片數" 5
      let completion_idx := get_header_index headers "預計完成日期" (-1)
      rows.foldl (prodRowStep today date_idx cookie_idx pieces_idx completion_idx) []

/-- `read_production_schedule` (calculate_cookie_inventory.py): a failed
worksheet read is re-raised. -/
def read_production_schedule (src : Except String RawTable) (today : Int) :
    Except String Sched :=
  match src with
  | Except.error e => Except.error e
  | Except.ok data => Except.ok (read_production_schedule_table data today)

/-- BOM expansion of one assembly row:
`assembly[date][cookie] += box_qty * pieces_per_box` over the box's BOM
entries. -/
def expandBomRow (date_key : Int) (box_qty : ℚ) (m : QMap) (acc : Sched) : Sched :=
  m.foldl (fun a p => addToSched a date_key p.1 (box_qty * p.2)) acc

/-- One row of `read_assembly_schedule`'s loop: skip rows that are too
short or have an unparsable date; for a nonempty box code with positive
quantity, expand through the BOM when the box is known, else contribute
nothing (a warning is logged; the run continues). -/
def asmRowStep (bom : Bom) (date_idx box_idx qty_idx : Int)
    (acc : Sched) (row : List String) : Sched :=
  if max date_idx (max box_idx qty_idx) < (row.length : Int) then
    match parse_date (getCell row date_idx) with
    | Option.none => acc
    | some assembly_date =>
        let box_code := pyStrip (getCell row box_idx)
        let box_qty := parse_float (PyVal.str (getCell row qty_idx))
        if box_code ≠ "" ∧ box_qty > 0 then
          match bomFind bom box_code with
          | some m => expandBomRow (normalize_date assembly_date) box_qty m acc
          | Option.none => acc
        else acc
  else acc

/-- Row loop of `read_assembly_schedule`. -/
def read_assembly_schedule_table (data : RawTable) (bom : Bom) : Sched :=
  match data with
  | [] => []
  | headers :: rows =>
      let date_idx := get_header_index headers "日期" 0
      let box_idx := get_header_index headers "禮盒代號" 1
      let qty_idx := get_header_index headers "計畫組裝數量" 2
      rows.foldl (asmRowStep bom date_idx box_idx qty_idx) []

/-- `read_assembly_schedule` (calculate_cookie_inventory.py): a failed
worksheet read is re-raised. -/
def read_assembly_schedule (src : Except String RawTable) (bom : Bom) :
    Except String Sched :=
  match src with
  | Except.error e => Except.error e
  | Except.ok data => Except.ok (read_assembly_schedule_table data bom)

/-! ## The top-level run (`calculate_cookie_inventory`) -/

/-- The body of the top-level `try` block: read the four tables (in source
order), then run the forecast.  The first escaping exception aborts the
block.  `write_results` only serialises the rows and is modelled as the
returned value. -/
def run_pipeline (invSrc bomSrc prodSrc asmSrc : Except String RawTable)
    (today : Int) (cookie_names : NameMap) : Except String (List DetailRow) :=
  let initial_inventory := read_initial_inventory invSrc
  match read_bom bomSrc with
  | Except.error e => Except.error e
  | Except.ok bom =>
      match read_production_schedule prodSrc today with
      | Except.error e => Except.error e
      | Except.ok production_schedule =>
          match read_assembly_schedule asmSrc bom with
          | Except.error e => Except.error e
          | Except.ok assembly_schedule =>
              Except.ok (calculate_inventory_forecast
                (initial_inventory.map (fun p => (p.1, (p.2 : ℚ))))
                production_schedule assembly_schedule today cookie_names)

/-- `calculate_cookie_inventory` (calculate_cookie_inventory.py): `true`
plus the written detail rows on success; on an escaping exception the
`except` branch logs and returns `False`, and nothing is written. -/
def calculate_cookie_inventory (invSrc bomSrc prodSrc asmSrc : Except String RawTable)
    (today : Int) (cookie_names : NameMap) : Bool × Option (List DetailRow) :=
  match run_pipeline invSrc bomSrc prodSrc asmSrc today cookie_names with
  | Except.ok rows => (true, some rows)
  | Except.error _ => (false, Option.none)

/-- `sys.exit(0 if success else 1)` in the `__main__` block. -/
def main_exit_code (success : Bool) : Nat := if success then 0 else 1

/-! ## Spec-side reference definitions for the reader claims -/

/-- Spec-side (C6): the completion date assigned to an included production
row — the explicit completion-date cell when present, nonempty and
parsable, otherwise the start date plus the 2-day lead time. -/
def claimCompletionDate (completion_idx : Int) (row : List String)
    (production_date : Int) : Int :=
  if 0 ≤ completion_idx ∧ completion_idx < (row.length : Int)
      ∧ getCell row completion_idx ≠ "" then
    match parse_date (getCell row completion_idx) with
    | some custom => custom
    | Option.none => production_date + LEAD_TIME_DAYS
  else production_date + LEAD_TIME_DAYS

/-- Spec-side (C6, as stated): the quantity a production row contributes
to completion date `d` and item code `c` — its parsed quantity when the
row carries its cells, its start date parses and is on or after
`today - 3`, its quantity is positive, and its completion date and item
code match; 0 otherwise.  (No condition on the item code being nonempty —
that is the respect in which the claim, as stated, fails.) -/
def claimProdContrib (today date_idx cookie_idx pieces_idx completion_idx : Int)
    (d : Int) (c : String) (row : List String) : ℚ :=
  if max date_idx (max cookie_idx pieces_idx) < (row.length : Int) then
    match parse_date (getCell row date_idx) with
    | some production_date =>
        if today - 3 ≤ production_date then
          let qty := parse_float (PyVal.str (getCell row pieces_idx))
          if qty > 0 ∧ claimCompletionDate completion_idx row production_date = d
              ∧ pyStrip (getCell row cookie_idx) = c
          then qty else 0
        else 0
    | Option.none => 0
  else 0

/-- Spec-side (C7): the quantity an assembly-plan row contributes to item
`X` on date `D` — `planned_box_qty * bom[box][X]` when the row is valid
(cells present, date parses to `D`, nonempty box code, positive quantity)
and the box is in the BOM; 0 otherwise (in particular 0 for a box code
absent from the BOM). -/
def claimAsmContrib (bom : Bom) (date_idx box_idx qty_idx : Int)
    (D : Int) (X : String) (row : List String) : ℚ :=
  if max date_idx (max box_idx qty_idx) < (row.length : Int) then
    match parse_date (getCell row date_idx) with
    | some assembly_date =>
        let box_code := pyStrip (getCell row box_idx)
        let box_qty := parse_float (PyVal.str (getCell row qty_idx))
        if box_code ≠ "" ∧ box_qty > 0 ∧ assembly_date = D then
          match bomFind bom box_code with
          | some m => box_qty * dictGet m X 0
          | Option.none => 0
        else 0
    | Option.none => 0
  else 0

/-! ## Engine lemmas: closed form of the day/item loops -/

theorem process_codes_eq (date : Int) (codes : List String)
    (prodS consS : Sched) (names : NameMap) (inv : InvMap) (h : codes.Nodup) :
    process_codes date codes prodS consS names inv =
      (codes.map (fun c => create_detail_row date c (nameGet names c)
          (inv c) (schedGet prodS date c) (schedGet consS date c)
          (inv c - schedGet consS date c + schedGet prodS date c)),
       fun c => if c ∈ codes then
           inv c - schedGet consS date c + schedGet prodS date c
         else inv c) := by
  induction codes generalizing inv with
  | nil =>
      refine Prod.ext (by simp [process_codes]) ?_
      funext c
      simp [process_codes]
  | cons c cs ih =>
      obtain ⟨hc, hcs⟩ := List.nodup_cons.mp h
      simp only [process_codes, calculate_daily_inventory, normalize_date]
      rw [ih _ hcs]
      refine Prod.ext ?_ ?_
      · simp only [List.map_cons]
        congr 1
        refine List.map_congr_left fun x hx => ?_
        have hxc : x ≠ c := fun hxy => hc (hxy ▸ hx)
        simp [hxc]
      · funext x
        by_cases hxc : x = c
        · subst hxc
          simp [hc]
        · by_cases hxs : x ∈ cs
          · simp [hxc, hxs]
          · simp [hxc, hxs]

theorem process_days_eq (n : Nat) (start : Int) (codes : List String)
    (prodS consS : Sched) (names : NameMap) (inv : InvMap) (h : codes.Nodup) :
    process_days n start codes prodS consS names inv =
      ((List.range n).flatMap (fun k => codes.map (fun c =>
          create_detail_row (start + k) c (nameGet names c)
            (iterInv codes prodS consS k start inv c)
            (schedGet prodS (start + k) c) (schedGet consS (start + k) c)
            (iterInv codes prodS consS k start inv c
              - schedGet consS (start + k) c + schedGet prodS (start + k) c))),
       iterInv codes prodS consS n start inv) := by
  induction n generalizing start inv with
  | zero => simp [process_days, iterInv]
  | succ m ih =>
      simp only [process_days]
      rw [process_codes_eq _ _ _ _ _ _ h]
      have hstep : (fun c => if c ∈ codes then
          inv c - schedGet consS start c + schedGet prodS start c else inv c)
          = stepInv codes prodS consS start inv := rfl
      rw [hstep, ih (start + 1) (stepInv codes prodS consS start inv)]
      refine Prod.ext ?_ rfl
      simp only [List.range_succ_eq_map, List.flatMap_cons, List.flatMap_map]
      congr 1
      · simp [iterInv]
      · refine List.flatMap_congr fun k hk => ?_
        have hdate : start + ((k : Int) + 1) = start + 1 + (k : Int) := by ring
        have hiter : ∀ c, iterInv codes prodS consS (k + 1) start inv c
            = iterInv codes prodS consS k (start + 1)
                (stepInv codes prodS consS start inv) c := fun c => rfl
        refine List.map_congr_left fun c hcmem => ?_
        push_cast
        rw [hdate, hiter]

theorem sortedCookieCodes_nodup (init : QMap) (prodS consS : Sched) :
    (sortedCookieCodes init prodS consS).Nodup :=
  ((List.perm_insertionSort _ _).symm).nodup
    (List.nodup_dedup _)

theorem sortedCookieCodes_sorted (init : QMap) (prodS consS : Sched) :
    List.Sorted (· ≤ ·) (sortedCookieCodes init prodS consS) :=
  List.sorted_insertionSort _ _

theorem sortedCookieCodes_mem (init : QMap) (prodS consS : Sched) (c : String) :
    c ∈ sortedCookieCodes init prodS consS ↔
      c ∈ get_all_cookie_codes init prodS consS :=
  (List.perm_insertionSort _ _).mem_iff

theorem calculate_inventory_forecast_eq (init : QMap) (prodS consS : Sched)
    (today : Int) (names : NameMap) :
    calculate_inventory_forecast init prodS consS today names =
      (List.range FORECAST_DAYS).flatMap (fun k =>
        (sortedCookieCodes init prodS consS).map
          (rowAt init prodS consS today names k)) := by
  show (process_days FORECAST_DAYS today
      (sortedCookieCodes init prodS consS) prodS consS names
      (fun k => dictGet init k 0)).1 = _
  rw [process_days_eq _ _ _ _ _ _ _ (sortedCookieCodes_nodup init prodS consS)]
  rfl

theorem iterInv_succ_back (codes : List String) (prodS consS : Sched) :
    ∀ (k : Nat) (start : Int) (inv : InvMap),
      iterInv codes prodS consS (k + 1) start inv =
        stepInv codes prodS consS (start + k)
          (iterInv codes prodS consS k start inv) := by
  intro k
  induction k with
  | zero =>
      intro start inv
      show iterInv codes prodS consS 0 (start + 1)
          (stepInv codes prodS consS start inv) = _
      simp [iterInv]
  | succ m ih =>
      intro start inv
      show iterInv codes prodS consS (m + 1) (start + 1)
          (stepInv codes prodS consS start inv) = _
      rw [ih (start + 1) (stepInv codes prodS consS start inv)]
      have : start + 1 + (m : Int) = start + ((m : Int) + 1) := by ring
      rw [this]
      rfl

theorem dayInv_succ (init : QMap) (prodS consS : Sched) (today : Int) (k : Nat) :
    dayInv init prodS consS today (k + 1) =
      stepInv (sortedCookieCodes init prodS consS) prodS consS (today + k)
        (dayInv init prodS consS today k) :=
  iterInv_succ_back _ _ _ k today _

theorem dayInv_zero (init : QMap) (prodS consS : Sched) (today : Int) (c : String) :
    dayInv init prodS consS today 0 c = dictGet init c 0 := rfl

/-- Every row of the forecast output is `rowAt` of a unique day offset and
a code from the sorted universe. -/
theorem mem_forecast_iff (init : QMap) (prodS consS : Sched) (today : Int)
    (names : NameMap) (r : DetailRow) :
    r ∈ calculate_inventory_forecast init prodS consS today names ↔
      ∃ k < FORECAST_DAYS, ∃ c ∈ sortedCookieCodes init prodS consS,
        r = rowAt init prodS consS today names k c := by
  rw [calculate_inventory_forecast_eq]
  simp only [List.mem_flatMap, List.mem_range, List.mem_map]
  constructor
  · rintro ⟨k, hk, c, hc, rfl⟩
    exact ⟨k, hk, c, hc, rfl⟩
  · rintro ⟨k, hk, c, hc, rfl⟩
    exact ⟨k, hk, c, hc, rfl⟩

/-- C1: every detail row emitted by the forecast engine — for any
opening-inventory map, completion schedule, consumption schedule, today
and horizon day — satisfies `ending = opening + incoming − required`
exactly, in exact (rational) arithmetic with no clamping and no
rounding. -/
theorem claim1_conservation (init : QMap) (prodS consS : Sched)
    (today : Int) (names : NameMap) (r : DetailRow)
    (hr : r ∈ calculate_inventory_forecast init prodS consS today names) :
    r.ending_qty = r.beginning_qty + r.completion_qty - r.demand_qty := by
  obtain ⟨k, hk, c, hc, rfl⟩ :=
    (mem_forecast_iff init prodS consS today names r).mp hr
  simp only [rowAt, create_detail_row]
  ring

/-- Witness for C1 at a concrete instance. -/
theorem claim1_conservation_witness :
    (rowAt [("A", 5)] [] [] 0 [] 0 "A").ending_qty =
      (rowAt [("A", 5)] [] [] 0 [] 0 "A").beginning_qty +
        (rowAt [("A", 5)] [] [] 0 [] 0 "A").completion_qty -
        (rowAt [("A", 5)] [] [] 0 [] 0 "A").demand_qty :=
  claim1_conservation [("A", 5)] [] [] 0 [] _
    ((mem_forecast_iff [("A", 5)] [] [] 0 [] _).mpr
      ⟨0, by decide, "A", (sortedCookieCodes_mem _ _ _ _).mpr (by decide), rfl⟩)

/-- C2: carry-forward continuity — for every item code and day offset
`N ≤ horizon − 2`, the ending quantity of day `N`'s row for that code
equals the opening quantity of day `N + 1`'s row for the same code; and
every day-0 row's opening quantity is the code's entry in the
opening-inventory map (0 when absent). -/
theorem claim2_carry_forward (init : QMap) (prodS consS : Sched)
    (today : Int) (names : NameMap) :
    (∀ (N : Nat) (c : String) (r r' : DetailRow),
        N + 1 < FORECAST_DAYS →
        r ∈ calculate_inventory_forecast init prodS consS today names →
        r' ∈ calculate_inventory_forecast init prodS consS today names →
        r.date = today + (N : Int) → r'.date = today + (N : Int) + 1 →
        r.cookie_code = c → r'.cookie_code = c →
        r.ending_qty = r'.beginning_qty)
    ∧ (∀ r : DetailRow,
        r ∈ calculate_inventory_forecast init prodS consS today names →
        r.date = today →
        r.beginning_qty = dictGet init r.cookie_code 0) := by
  constructor
  · intro N c r r' hN hr hr' hd hd' hcode hcode'
    obtain ⟨k, hk, c1, hc1, rfl⟩ :=
      (mem_forecast_iff init prodS consS today names r).mp hr
    obtain ⟨k', hk', c2, hc2, rfl⟩ :=
      (mem_forecast_iff init prodS consS today names r').mp hr'
    simp only [rowAt, create_detail_row] at hd hd' hcode hcode' ⊢
    have hkN : k = N := by omega
    have hkN' : k' = N + 1 := by omega
    subst hkN hkN' hcode hcode'
    rw [dayInv_succ]
    simp [stepInv, hc2]
  · intro r hr hd
    obtain ⟨k, hk, c, hc, rfl⟩ :=
      (mem_forecast_iff init prodS consS today names r).mp hr
    simp only [rowAt, create_detail_row] at hd ⊢
    have hk0 : k = 0 := by omega
    subst hk0
    exact dayInv_zero init prodS consS today c

/-- Witness for C2 at a concrete instance. -/
theorem claim2_carry_forward_witness :
    (rowAt [("A", 5)] [] [] 0 [] 0 "A").ending_qty =
      (rowAt [("A", 5)] [] [] 0 [] 1 "A").beginning_qty ∧
    (rowAt [("A", 5)] [] [] 0 [] 0 "A").beginning_qty =
      dictGet [("A", 5)] (rowAt [("A", 5)] [] [] 0 [] 0 "A").cookie_code 0 :=
  ⟨(claim2_carry_forward [("A", 5)] [] [] 0 []).1 0 "A"
      (rowAt [("A", 5)] [] [] 0 [] 0 "A")
      (rowAt [("A", 5)] [] [] 0 [] 1 "A")
      (by decide)
      ((mem_forecast_iff [("A", 5)] [] [] 0 [] _).mpr
        ⟨0, by decide, "A", (sortedCookieCodes_mem _ _ _ _).mpr (by decide), rfl⟩)
      ((mem_forecast_iff [("A", 5)] [] [] 0 [] _).mpr
        ⟨1, by decide, "A", (sortedCookieCodes_mem _ _ _ _).mpr (by decide), rfl⟩)
      (by decide) (by decide) rfl rfl,
   (claim2_carry_forward [("A", 5)] [] [] 0 []).2
      (rowAt [("A", 5)] [] [] 0 [] 0 "A")
      ((mem_forecast_iff [("A", 5)] [] [] 0 [] _).mpr
        ⟨0, by decide, "A", (sortedCookieCodes_mem _ _ _ _).mpr (by decide), rfl⟩)
      (by decide)⟩

/-- C3: completeness and ordering — the forecast output consists of
exactly `horizon × |U|` rows, one per day offset and per code of the
universe `U` (codes of the opening inventory, completion schedule or
consumption schedule), ordered date-major with codes lexicographically
sorted within each date; items with no activity are included. -/
theorem claim3_completeness (init : QMap) (prodS consS : Sched)
    (today : Int) (names : NameMap) :
    (∀ c : String, c ∈ sortedCookieCodes init prodS consS ↔
        (c ∈ init.map Prod.fst
          ∨ (∃ p ∈ prodS, c ∈ p.2.map Prod.fst)
          ∨ (∃ p ∈ consS, c ∈ p.2.map Prod.fst)))
    ∧ (sortedCookieCodes init prodS consS).Nodup
    ∧ List.Sorted (· ≤ ·) (sortedCookieCodes init prodS consS)
    ∧ (calculate_inventory_forecast init prodS consS today names).length
        = FORECAST_DAYS * (sortedCookieCodes init prodS consS).length
    ∧ (calculate_inventory_forecast init prodS consS today names).map
          (fun r => (r.date, r.cookie_code))
        = (List.range FORECAST_DAYS).flatMap (fun k =>
            (sortedCookieCodes init prodS consS).map
              (fun c => (today + (k : Int), c))) := by
  refine ⟨?_, sortedCookieCodes_nodup init prodS consS,
    sortedCookieCodes_sorted init prodS consS, ?_, ?_⟩
  · intro c
    rw [sortedCookieCodes_mem]
    simp [get_all_cookie_codes, List.mem_dedup, List.mem_append,
      List.mem_flatMap]
  · rw [calculate_inventory_forecast_eq, List.length_flatMap]
    have hc : List.map
        (List.length ∘ fun k => List.map
          (rowAt init prodS consS today names k)
          (sortedCookieCodes init prodS consS))
        (List.range FORECAST_DAYS)
        = List.replicate FORECAST_DAYS
            (sortedCookieCodes init prodS consS).length := by
      simp [Function.comp_def, List.length_map, List.map_const',
        List.length_range]
    rw [hc, List.sum_replicate, smul_eq_mul]
  · rw [calculate_inventory_forecast_eq, List.map_flatMap]
    refine List.flatMap_congr fun k _ => ?_
    rw [List.map_map]
    exact List.map_congr_left fun c _ => rfl

/-- C4: shortage detection — every row's shortage flag is set exactly when
its ending quantity is strictly negative, and its shortage quantity is
`max 0 (−ending)`. -/
theorem claim4_shortage (init : QMap) (prodS consS : Sched)
    (today : Int) (names : NameMap) (r : DetailRow)
    (hr : r ∈ calculate_inventory_forecast init prodS consS today names) :
    (r.is_shortage = "是" ↔ r.ending_qty < 0)
    ∧ r.shortage_qty = max 0 (-r.ending_qty) := by
  obtain ⟨k, hk, c, hc, rfl⟩ :=
    (mem_forecast_iff init prodS consS today names r).mp hr
  simp only [rowAt, create_detail_row]
  set e : ℚ := dayInv init prodS consS today k c
      - schedGet consS (today + (k : Int)) c
      + schedGet prodS (today + (k : Int)) c with he
  by_cases hneg : e < 0
  · constructor
    · simp [hneg]
    · simp only [hneg, if_true]
      rw [abs_of_neg hneg, max_eq_right (by linarith)]
  · constructor
    · simp [hneg]
    · simp only [hneg, if_false]
      rw [max_eq_left (by linarith)]

/-- Witness for C4 at a concrete instance with negative inventory. -/
theorem claim4_shortage_witness :
    ((rowAt [("A", -50)] [] [] 0 [] 0 "A").is_shortage = "是" ↔
        (rowAt [("A", -50)] [] [] 0 [] 0 "A").ending_qty < 0)
    ∧ (rowAt [("A", -50)] [] [] 0 [] 0 "A").shortage_qty =
        max 0 (-(rowAt [("A", -50)] [] [] 0 [] 0 "A").ending_qty) :=
  claim4_shortage [("A", -50)] [] [] 0 [] _
    ((mem_forecast_iff [("A", -50)] [] [] 0 [] _).mpr
      ⟨0, by decide, "A", (sortedCookieCodes_mem _ _ _ _).mpr (by decide), rfl⟩)

/-! ## Unit-normalization and quantity-parsing claims -/

theorem unit_factor_eq_spec (code : String) :
    get_unit_conversion_factor code = specFactor code := by
  by_cases h : code = ""
  · simp [get_unit_conversion_factor, specFactor, h]
  · simp only [get_unit_conversion_factor, specFactor, specSuffixFactor, h,
      if_false]
    split_ifs <;> simp_all

/-- C8 counterexample: the one-character code `"D"` carries a packaging
suffix, yet `normalize_cookie_code` leaves it unchanged instead of
rewriting the suffix to `C` as the claim states. -/
theorem claim8_counterexample :
    hasPackagingSuffix "D" = true ∧ normalize_cookie_code "D" = "D"
      ∧ "D".dropRight 1 ++ "C" = "C" ∧ ("D" : String) ≠ "C" := by decide

/-- C8 (amended): the conversion factor is determined solely by the
code's last character, case-insensitively, via the spec's table
(`C`/`A` → 1, `D` → 2, `F` → 4, `H` → 8, other or absent → 1); and for
codes of length at least two, a trailing packaging suffix
`D`/`H`/`F`/`A` is rewritten to `C`, all other codes (including every
code shorter than two characters) being left unchanged.  In particular
`"12345D"` with quantity 100 normalizes to `"12345C"` with quantity
200. -/
theorem claim8_unit_normalization :
    (∀ code : String, get_unit_conversion_factor code = specFactor code)
    ∧ (∀ code : String, 2 ≤ code.length → hasPackagingSuffix code = true →
        normalize_cookie_code code = code.dropRight 1 ++ "C")
    ∧ (∀ code : String, hasPackagingSuffix code = false →
        normalize_cookie_code code = code)
    ∧ normalize_cookie_code "12345D" = "12345C"
    ∧ convert_to_pieces 100 "12345D" = 200 := by
  refine ⟨unit_factor_eq_spec, ?_, ?_, by decide, ?_⟩
  · intro code hlen hs
    have hlt : ¬ code.length < 2 := by omega
    simp only [hasPackagingSuffix, Bool.and_eq_true, Bool.or_eq_true,
      decide_eq_true_eq] at hs
    rcases hs with ⟨hne, ((h1 | h1) | h1) | h1⟩ <;>
      simp [normalize_cookie_code, hlt, h1]
  · intro code hs
    by_cases hlt : code.length < 2
    · simp [normalize_cookie_code, hlt]
    · have hne : code ≠ "" := by
        intro he
        rw [he] at hlt
        simp at hlt
      simp only [hasPackagingSuffix, Bool.and_eq_false_iff,
        Bool.or_eq_false_iff, decide_eq_false_iff_not, ne_eq,
        not_not] at hs
      rcases hs with hs | hs
      · exact absurd hs hne
      · simp [normalize_cookie_code, hlt, hs.1.1.1, hs.1.1.2, hs.1.2, hs.2]
  · show (100 : ℚ) * get_unit_conversion_factor "12345D" = 200
    rw [show get_unit_conversion_factor "12345D" = 2 from by decide]
    norm_num

/-- Witness for C8 (amended) at concrete codes. -/
theorem claim8_unit_normalization_witness :
    normalize_cookie_code "12345D" = "12345C"
      ∧ normalize_cookie_code "ABC" = "ABC" :=
  ⟨claim8_unit_normalization.2.1 "12345D" (by decide) (by decide),
   claim8_unit_normalization.2.2.1 "ABC" (by decide)⟩

/-- C10: for item codes of length 0 or 1, `normalize_cookie_code` returns
the code unchanged even when its only character is a packaging suffix,
while the conversion factor is still the packaging factor of that
character — so `convert_to_pieces` multiplies by the packaging factor
without the code being rewritten (e.g. factor 2 for the code `"D"`). -/
theorem claim10_short_code_suffix (code : String) (q : ℚ)
    (h : code.length ≤ 1) :
    normalize_cookie_code code = code
    ∧ convert_to_pieces q code = q * specFactor code
    ∧ get_unit_conversion_factor "D" = 2 := by
  refine ⟨?_, ?_, by decide⟩
  · have hlt : code.length < 2 := by omega
    simp [normalize_cookie_code, hlt]
  · show q * get_unit_conversion_factor code = q * specFactor code
    rw [unit_factor_eq_spec]

/-- Witness for C10 at the one-character code `"D"`. -/
theorem claim10_short_code_suffix_witness :
    normalize_cookie_code "D" = "D"
    ∧ convert_to_pieces 100 "D" = 100 * specFactor "D"
    ∧ get_unit_conversion_factor "D" = 2 :=
  claim10_short_code_suffix "D" 100 (by decide)

theorem pyFloatOfString_ten : pyFloatOfString "10" = some 10 := by
  have h : pyFloatOfString "10"
      = some (((1 : Int) : ℚ)
          * (((10 : Nat) : ℚ) + ((0 : Nat) : ℚ) / (10 : ℚ) ^ (0 : Nat))) := rfl
  rw [h]
  norm_num

theorem parse_float_ten : parse_float (PyVal.str "10") = 10 := by
  have h : pyFloatOfString (parseNumericString "10") = some 10 := by
    rw [show parseNumericString "10" = "10" from by decide]
    exact pyFloatOfString_ten
  simp [parse_float, show pyStrip "10" = "10" from by decide, h]

/-- C9 counterexample: the integer parsing variant does not pass numeric
input through — `parse_number` truncates the float `7/2` to the integer
`3`. -/
theorem claim9_counterexample :
    parse_number (PyVal.float (7 / 2)) = 3 ∧ ((3 : ℚ) ≠ 7 / 2) := by
  constructor
  · show pyTrunc (7 / 2) = 3
    rw [pyTrunc, if_neg (by norm_num)]
    norm_num
  · norm_num

/-- C9 (amended): on the finite fragment the parsing variants return the
claimed values — 0 for `None` or empty/whitespace input; the integer
itself for integer input (the real variant passing an integer through
when it is within the double range); exact passthrough of a finite float
by the real variant, truncation toward zero by the integer variant; and,
for text whose comma-stripped form is a plain signed decimal numeral, the
parsed value within the double range (real variant), its truncation
toward zero (integer variant), and 0 when such text fails to parse.  No
totality is claimed: outside this fragment the source's integer variant
raises an uncaught `OverflowError`/`ValueError` (e.g. on `"1e400"`,
whose float conversion is infinite). -/
theorem claim9_parse_values :
    (parse_number PyVal.none = 0 ∧ parse_float PyVal.none = 0)
    ∧ (∀ s : String, pyStrip s = "" →
        parse_number (PyVal.str s) = 0 ∧ parse_float (PyVal.str s) = 0)
    ∧ (∀ n : Int, parse_number (PyVal.int n) = n)
    ∧ (∀ n : Int, intInDoubleRange n → parse_float (PyVal.int n) = (n : ℚ))
    ∧ (∀ q : ℚ, parse_float (PyVal.float q) = q
        ∧ parse_number (PyVal.float q) = pyTrunc q)
    ∧ (∀ (s : String) (q : ℚ),
        plainDecimal (parseNumericString (pyStrip s)) = true →
        inDoubleRange q →
        pyFloatOfString (parseNumericString (pyStrip s)) = some q →
        parse_float (PyVal.str s) = q
          ∧ parse_number (PyVal.str s) = pyTrunc q)
    ∧ (∀ s : String,
        plainDecimal (parseNumericString (pyStrip s)) = true →
        pyFloatOfString (parseNumericString (pyStrip s)) = Option.none →
        parse_float (PyVal.str s) = 0 ∧ parse_number (PyVal.str s) = 0) := by
  refine ⟨⟨rfl, rfl⟩, ?_, fun n => rfl, fun n _ => rfl,
    fun q => ⟨rfl, rfl⟩, ?_, ?_⟩
  · intro s h
    constructor <;> simp [parse_number, parse_float, h]
  · intro s q hpd hq h
    by_cases hvs : pyStrip s = ""
    · rw [hvs, show parseNumericString "" = "" from rfl,
        show pyFloatOfString "" = Option.none from by decide] at h
      exact absurd h (by simp)
    · constructor <;> simp [parse_float, parse_number, hvs, h]
  · intro s hpd h
    by_cases hvs : pyStrip s = ""
    · constructor <;> simp [parse_float, parse_number, hvs]
    · constructor <;> simp [parse_float, parse_number, hvs, h]

set_option maxRecDepth 4096 in
/-- Witness for C9 (amended) at concrete inputs: whitespace, a malformed
plain numeral, and a comma-free numeral that parses. -/
theorem claim9_parse_values_witness :
    (parse_number (PyVal.str " ") = 0 ∧ parse_float (PyVal.str " ") = 0)
    ∧ (parse_float (PyVal.str "1.2.3") = 0
        ∧ parse_number (PyVal.str "1.2.3") = 0)
    ∧ (parse_float (PyVal.str "10") = 10
        ∧ parse_number (PyVal.str "10") = pyTrunc 10) :=
  ⟨claim9_parse_values.2.1 " " (by decide),
   claim9_parse_values.2.2.2.2.2.2 "1.2.3" (by decide) (by decide),
   claim9_parse_values.2.2.2.2.2.1 "10" 10 (by decide) (by decide)
     (by rw [show parseNumericString (pyStrip "10") = "10" from by decide]
         exact pyFloatOfString_ten)⟩


/-! ## Map-accumulation lemmas for the readers -/

theorem dictGet_cons (p : String × ℚ) (rest : QMap) (x : String) (dflt : ℚ) :
    dictGet (p :: rest) x dflt = if p.1 = x then p.2 else dictGet rest x dflt := by
  by_cases h : p.1 = x <;> simp [dictGet, List.find?, h]

theorem dictGet_addToQMap (m : QMap) (k : String) (v : ℚ) (x : String) :
    dictGet (addToQMap m k v) x 0 =
      dictGet m x 0 + (if k = x then v else 0) := by
  induction m with
  | nil =>
      by_cases h : k = x <;> simp [addToQMap, dictGet, List.find?, h]
  | cons p rest ih =>
      obtain ⟨k', v'⟩ := p
      by_cases hx : k' = x
      · subst hx
        by_cases hk : k' = k
        · subst hk
          simp [addToQMap, dictGet_cons]
        · have hkx : ¬ k = k' := fun he => hk he.symm
          simp [addToQMap, hk, dictGet_cons, hkx]
      · by_cases hk : k' = k
        · subst hk
          simp [addToQMap, dictGet_cons, hx]
        · simp [addToQMap, hk, dictGet_cons, hx, ih]

theorem schedGet_nil (d : Int) (c : String) : schedGet [] d c = 0 := rfl

theorem schedGet_cons (p : Int × QMap) (rest : Sched) (d : Int) (c : String) :
    schedGet (p :: rest) d c =
      if p.1 = d then dictGet p.2 c 0 else schedGet rest d c := by
  by_cases h : p.1 = d <;> simp [schedGet, dictGet, List.find?, h]

theorem schedGet_addToSched (s : Sched) (d0 : Int) (k : String) (v : ℚ)
    (d : Int) (c : String) :
    schedGet (addToSched s d0 k v) d c =
      schedGet s d c + (if d0 = d ∧ k = c then v else 0) := by
  induction s with
  | nil =>
      by_cases hd : d0 = d
      · subst hd
        by_cases hk : k = c <;>
          simp [addToSched, schedGet_cons, schedGet, addToQMap, dictGet,
            List.find?, hk]
      · simp [addToSched, schedGet_cons, schedGet_nil, hd]
  | cons p rest ih =>
      obtain ⟨d', m⟩ := p
      by_cases hd' : d' = d0
      · subst hd'
        by_cases hdd : d' = d
        · subst hdd
          simp [addToSched, schedGet_cons, dictGet_addToQMap]
        · have hne : ¬ (d' = d ∧ k = c) := fun h => hdd h.1
          simp [addToSched, schedGet_cons, hdd, hne]
      · by_cases hdd : d' = d
        · subst hdd
          have hne : ¬ (d0 = d' ∧ k = c) := fun h => hd' h.1.symm
          simp [addToSched, hd', schedGet_cons, hne]
        · simp [addToSched, hd', schedGet_cons, hdd, ih]

theorem dictGet_eq_zero_of_not_mem (m : QMap) (k : String)
    (h : k ∉ m.map Prod.fst) : dictGet m k 0 = 0 := by
  induction m with
  | nil => rfl
  | cons p rest ih =>
      simp only [List.map_cons, List.mem_cons] at h
      push_neg at h
      rw [dictGet_cons, if_neg (fun he => h.1 he.symm)]
      exact ih h.2

theorem bomFind_mem (bom : Bom) (box : String) (m : QMap)
    (h : bomFind bom box = some m) : ∃ p ∈ bom, p.2 = m := by
  unfold bomFind at h
  cases hf : bom.find? (fun p => p.1 = box) with
  | none => rw [hf] at h; exact absurd h (by simp)
  | some p =>
      rw [hf] at h
      simp only [Option.some.injEq] at h
      exact ⟨p, List.mem_of_find?_eq_some hf, h⟩

theorem expandBomRow_schedGet (d0 : Int) (q : ℚ) (m : QMap)
    (hm : (m.map Prod.fst).Nodup) (acc : Sched) (d : Int) (x : String) :
    schedGet (expandBomRow d0 q m acc) d x =
      schedGet acc d x + (if d0 = d then q * dictGet m x 0 else 0) := by
  induction m generalizing acc with
  | nil => simp [expandBomRow, dictGet]
  | cons p rest ih =>
      rw [List.map_cons, List.nodup_cons] at hm
      show schedGet (expandBomRow d0 q rest (addToSched acc d0 p.1 (q * p.2)))
          d x = _
      rw [ih hm.2, schedGet_addToSched]
      by_cases hd : d0 = d
      · subst hd
        by_cases hx : p.1 = x
        · subst hx
          have h0 : dictGet rest p.1 0 = 0 :=
            dictGet_eq_zero_of_not_mem _ _ hm.1
          simp [dictGet_cons, h0]
        · simp [dictGet_cons, hx]
      · have hne : ¬ (d0 = d ∧ p.1 = x) := fun h => hd h.1
        simp [hd, hne]

theorem prodRowStep_schedGet (today didx cidx pidx xidx d : Int) (c : String)
    (hc : c ≠ "") (acc : Sched) (row : List String) :
    schedGet (prodRowStep today didx cidx pidx xidx acc row) d c =
      schedGet acc d c + claimProdContrib today didx cidx pidx xidx d c row := by
  unfold prodRowStep claimProdContrib
  by_cases hlen : max didx (max cidx pidx) < (row.length : Int)
  · simp only [hlen, if_true]
    cases hpd : parse_date (getCell row didx) with
    | none => simp
    | some pd =>
        by_cases hwin : pd < today - 3
        · have hwin' : ¬ (today - 3 ≤ pd) := by omega
          simp [hwin, hwin']
        · have hwin' : today - 3 ≤ pd := by omega
          simp only [hwin, if_false, hwin', if_true]
          by_cases hcode : pyStrip (getCell row cidx) = ""
          · have hnc : ("" : String) ≠ c := fun h => hc h.symm
            simp [hcode, hnc]
          · simp only [hcode, if_false]
            by_cases hqty : parse_float (PyVal.str (getCell row pidx)) > 0
            · rw [if_pos hqty, schedGet_addToSched]
              congr 1
              by_cases hxe : 0 ≤ xidx ∧ xidx < (row.length : Int)
                  ∧ getCell row xidx ≠ ""
              · simp only [hxe, if_true, claimCompletionDate]
                cases hcd : parse_date (getCell row xidx) with
                | some custom => simp [normalize_date, hqty]
                | none => simp [normalize_date, hqty]
              · simp [hxe, normalize_date, claimCompletionDate, hqty]
            · simp [hqty]
  · simp [hlen]

theorem prodRowStep_schedGet_empty (today didx cidx pidx xidx d : Int)
    (acc : Sched) (row : List String) :
    schedGet (prodRowStep today didx cidx pidx xidx acc row) d "" =
      schedGet acc d "" := by
  unfold prodRowStep
  by_cases hlen : max didx (max cidx pidx) < (row.length : Int)
  · simp only [hlen, if_true]
    cases hpd : parse_date (getCell row didx) with
    | none => rfl
    | some pd =>
        by_cases hwin : pd < today - 3
        · simp [hwin]
        · simp only [hwin, if_false]
          by_cases hcode : pyStrip (getCell row cidx) = ""
          · simp [hcode]
          · simp only [hcode, if_false]
            by_cases hqty : parse_float (PyVal.str (getCell row pidx)) > 0
            · rw [if_pos hqty, schedGet_addToSched,
                if_neg (fun h => hcode h.2), add_zero]
            · simp [hqty]
  · simp [hlen]

theorem prod_fold_schedGet (today didx cidx pidx xidx : Int)
    (rows : List (List String)) (acc : Sched) (d : Int) (c : String)
    (hc : c ≠ "") :
    schedGet (rows.foldl (prodRowStep today didx cidx pidx xidx) acc) d c =
      schedGet acc d c
        + (rows.map (claimProdContrib today didx cidx pidx xidx d c)).sum := by
  induction rows generalizing acc with
  | nil => simp
  | cons row rest ih =>
      rw [List.foldl_cons, ih, prodRowStep_schedGet today didx cidx pidx xidx
        d c hc, List.map_cons, List.sum_cons]
      ring

theorem prod_fold_schedGet_empty (today didx cidx pidx xidx : Int)
    (rows : List (List String)) (acc : Sched) (d : Int) :
    schedGet (rows.foldl (prodRowStep today didx cidx pidx xidx) acc) d "" =
      schedGet acc d "" := by
  induction rows generalizing acc with
  | nil => simp
  | cons row rest ih =>
      rw [List.foldl_cons, ih, prodRowStep_schedGet_empty]

theorem asmRowStep_schedGet (bom : Bom) (didx bidx qidx : Int)
    (hbom : ∀ p ∈ bom, (p.2.map Prod.fst).Nodup)
    (acc : Sched) (row : List String) (D : Int) (X : String) :
    schedGet (asmRowStep bom didx bidx qidx acc row) D X =
      schedGet acc D X + claimAsmContrib bom didx bidx qidx D X row := by
  unfold asmRowStep claimAsmContrib
  by_cases hlen : max didx (max bidx qidx) < (row.length : Int)
  · simp only [hlen, if_true]
    cases hpd : parse_date (getCell row didx) with
    | none => simp
    | some ad =>
        cases hbf : bomFind bom (pyStrip (getCell row bidx)) with
        | none => simp [hbf]
        | some m =>
            obtain ⟨p, hp, hpm⟩ := bomFind_mem _ _ _ hbf
            have hm : (m.map Prod.fst).Nodup := hpm ▸ hbom p hp
            by_cases hbq : pyStrip (getCell row bidx) ≠ ""
                ∧ parse_float (PyVal.str (getCell row qidx)) > 0
            · simp only [hbf]
              rw [if_pos hbq, expandBomRow_schedGet _ _ _ hm]
              simp [normalize_date, hbq.1, hbq.2]
            · have hne : ¬ (pyStrip (getCell row bidx) ≠ ""
                  ∧ parse_float (PyVal.str (getCell row qidx)) > 0 ∧ ad = D) :=
                fun h => hbq ⟨h.1, h.2.1⟩
              simp [hbf, hbq, hne]
  · simp [hlen]

theorem asm_fold_schedGet (bom : Bom) (didx bidx qidx : Int)
    (hbom : ∀ p ∈ bom, (p.2.map Prod.fst).Nodup)
    (rows : List (List String)) (acc : Sched) (D : Int) (X : String) :
    schedGet (rows.foldl (asmRowStep bom didx bidx qidx) acc) D X =
      schedGet acc D X
        + (rows.map (claimAsmContrib bom didx bidx qidx D X)).sum := by
  induction rows generalizing acc with
  | nil => simp
  | cons row rest ih =>
      rw [List.foldl_cons, ih, asmRowStep_schedGet bom didx bidx qidx hbom,
        List.map_cons, List.sum_cons]
      ring

/-- C5 counterexample: a total failure to read the opening-inventory table
is not fatal — `read_initial_inventory` catches it and returns the empty
inventory, and the run still succeeds (exit code 0) and writes its output,
contradicting the claim that all four readers propagate read failure. -/
theorem claim5_counterexample :
    read_initial_inventory (Except.error "boom") = []
    ∧ calculate_cookie_inventory (Except.error "boom") (Except.ok [])
        (Except.ok []) (Except.ok []) 0 [] = (true, some [])
    ∧ main_exit_code true = 0 :=
  ⟨rfl, rfl, rfl⟩

/-- C5 (amended): a total failure to read the BOM, production-schedule or
assembly-schedule table propagates out of the reader and makes the
top-level run report failure (exit code 1) and write no output; the
opening-inventory reader instead catches its read failure, logs it, and
continues with an empty inventory map. -/
theorem claim5_fatal_source_reads
    (invSrc bomSrc prodSrc asmSrc : Except String RawTable) (bom : Bom)
    (today : Int) (names : NameMap) (e : String) :
    read_bom (Except.error e) = Except.error e
    ∧ read_production_schedule (Except.error e) today = Except.error e
    ∧ read_assembly_schedule (Except.error e) bom = Except.error e
    ∧ read_initial_inventory (Except.error e) = []
    ∧ calculate_cookie_inventory invSrc (Except.error e) prodSrc asmSrc
        today names = (false, Option.none)
    ∧ calculate_cookie_inventory invSrc bomSrc (Except.error e) asmSrc
        today names = (false, Option.none)
    ∧ calculate_cookie_inventory invSrc bomSrc prodSrc (Except.error e)
        today names = (false, Option.none)
    ∧ main_exit_code (calculate_cookie_inventory invSrc (Except.error e)
        prodSrc asmSrc today names).1 = 1 := by
  refine ⟨rfl, rfl, rfl, rfl, rfl, ?_, ?_, rfl⟩
  · cases bomSrc <;> rfl
  · cases bomSrc <;> cases prodSrc <;> rfl

/-- C6 (amended): for every nonempty item code, the production-schedule
reader's result at a (completion date, item code) pair is the sum of the
parsed quantities of exactly those rows that carry their cells, whose
parsable start date is on or after `today − 3`, whose quantity is
positive, and whose item-code cell matches — with the completion date
taken from the explicit completion-date cell when present, nonempty and
parsable, else start date + the 2-day lead time (`claimProdContrib`);
rows with an empty item-code cell are skipped, so no entry ever
accumulates under the empty code.  A successful table read never
raises. -/
theorem claim6_production_window (headers : List String)
    (rows : List (List String)) (today : Int) :
    (∀ (d : Int) (c : String), c ≠ "" →
      schedGet (read_production_schedule_table (headers :: rows) today) d c
        = (rows.map (claimProdContrib today
            (get_header_index headers "日期" 0)
            (get_header_index headers "餅乾代號" 2)
            (get_header_index headers "生產片數" 5)
            (get_header_index headers "預計完成日期" (-1)) d c)).sum)
    ∧ (∀ d : Int,
        schedGet (read_production_schedule_table (headers :: rows) today) d ""
          = 0)
    ∧ read_production_schedule (Except.ok (headers :: rows)) today
        = Except.ok (read_production_schedule_table (headers :: rows) today) := by
  have hred : read_production_schedule_table (headers :: rows) today
      = rows.foldl (prodRowStep today
          (get_header_index headers "日期" 0)
          (get_header_index headers "餅乾代號" 2)
          (get_header_index headers "生產片數" 5)
          (get_header_index headers "預計完成日期" (-1))) [] := rfl
  refine ⟨?_, ?_, rfl⟩
  · intro d c hc
    rw [hred, prod_fold_schedGet _ _ _ _ _ _ _ _ _ hc, schedGet_nil, zero_add]
  · intro d
    rw [hred, prod_fold_schedGet_empty, schedGet_nil]

/-- Witness for C6 (amended) on a one-row schedule. -/
theorem claim6_production_window_witness :
    schedGet (read_production_schedule_table
        [["日期", "餅乾代號", "生產片數"], ["2025/1/10", "A", "10"]]
        (toOrdinal 2025 1 10))
      (toOrdinal 2025 1 10 + 2) "A"
      = ([["2025/1/10", "A", "10"]].map (claimProdContrib (toOrdinal 2025 1 10)
          (get_header_index ["日期", "餅乾代號", "生產片數"] "日期" 0)
          (get_header_index ["日期", "餅乾代號", "生產片數"] "餅乾代號" 2)
          (get_header_index ["日期", "餅乾代號", "生產片數"] "生產片數" 5)
          (get_header_index ["日期", "餅乾代號", "生產片數"] "預計完成日期" (-1))
          (toOrdinal 2025 1 10 + 2) "A")).sum :=
  (claim6_production_window ["日期", "餅乾代號", "生產片數"]
      [["2025/1/10", "A", "10"]] (toOrdinal 2025 1 10)).1
    (toOrdinal 2025 1 10 + 2) "A" (by decide)

/-- C7: the consumption schedule assigns to item `X` on date `D` the sum,
over the valid assembly-plan rows for date `D` whose box code is in the
BOM, of planned quantity × `bom[box][X]` — contributions from multiple
rows sum; a row whose box code is absent from the BOM contributes zero,
and a successful table read never raises regardless of BOM misses. -/
theorem claim7_bom_expansion (headers : List String)
    (rows : List (List String)) (bom : Bom)
    (hbom : ∀ p ∈ bom, (p.2.map Prod.fst).Nodup) (D : Int) (X : String) :
    schedGet (read_assembly_schedule_table (headers :: rows) bom) D X
      = (rows.map (claimAsmContrib bom
          (get_header_index headers "日期" 0)
          (get_header_index headers "禮盒代號" 1)
          (get_header_index headers "計畫組裝數量" 2) D X)).sum
    ∧ read_assembly_schedule (Except.ok (headers :: rows)) bom
        = Except.ok (read_assembly_schedule_table (headers :: rows) bom) := by
  have hred : read_assembly_schedule_table (headers :: rows) bom
      = rows.foldl (asmRowStep bom
          (get_header_index headers "日期" 0)
          (get_header_index headers "禮盒代號" 1)
          (get_header_index headers "計畫組裝數量" 2)) [] := rfl
  refine ⟨?_, rfl⟩
  rw [hred, asm_fold_schedGet _ _ _ _ hbom, schedGet_nil, zero_add]

/-- Witness for C7 on a one-row plan with a two-component BOM. -/
theorem claim7_bom_expansion_witness :
    schedGet (read_assembly_schedule_table
        [["日期", "禮盒代號", "計畫組裝數量"], ["2025/1/10", "B", "10"]]
        [("B", [("X", 2), ("Y", 3)])]) (toOrdinal 2025 1 10) "X"
      = ([["2025/1/10", "B", "10"]].map (claimAsmContrib
          [("B", [("X", 2), ("Y", 3)])]
          (get_header_index ["日期", "禮盒代號", "計畫組裝數量"] "日期" 0)
          (get_header_index ["日期", "禮盒代號", "計畫組裝數量"] "禮盒代號" 1)
          (get_header_index ["日期", "禮盒代號", "計畫組裝數量"] "計畫組裝數量" 2)
          (toOrdinal 2025 1 10) "X")).sum :=
  (claim7_bom_expansion ["日期", "禮盒代號", "計畫組裝數量"]
      [["2025/1/10", "B", "10"]] [("B", [("X", 2), ("Y", 3)])]
      (by decide) (toOrdinal 2025 1 10) "X").1


/-- C6 counterexample: the claim's inclusion rule ("exactly the rows whose
parsable start date is on or after today − 3 and whose quantity is
positive") is violated by a row with a blank item-code cell — it meets
both conditions yet the reader skips it, so the reader's map and the
claim's row-set accumulation differ at the empty code. -/
theorem claim6_counterexample :
    schedGet (read_production_schedule_table
        [["日期", "餅乾代號", "生產片數"], ["2025/1/10", "", "10"]]
        (toOrdinal 2025 1 10))
      (toOrdinal 2025 1 10 + 2) ""
    ≠ ([["2025/1/10", "", "10"]].map (claimProdContrib (toOrdinal 2025 1 10)
        (get_header_index ["日期", "餅乾代號", "生產片數"] "日期" 0)
        (get_header_index ["日期", "餅乾代號", "生產片數"] "餅乾代號" 2)
        (get_header_index ["日期", "餅乾代號", "生產片數"] "生產片數" 5)
        (get_header_index ["日期", "餅乾代號", "生產片數"] "預計完成日期" (-1))
        (toOrdinal 2025 1 10 + 2) "")).sum := by
  intro h
  rw [show schedGet (read_production_schedule_table
        [["日期", "餅乾代號", "生產片數"], ["2025/1/10", "", "10"]]
        (toOrdinal 2025 1 10)) (toOrdinal 2025 1 10 + 2) "" = 0 from rfl,
    List.map_cons, List.map_nil, List.sum_cons, List.sum_nil, add_zero] at h
  have hcontrib : claimProdContrib (toOrdinal 2025 1 10)
      (get_header_index ["日期", "餅乾代號", "生產片數"] "日期" 0)
      (get_header_index ["日期", "餅乾代號", "生產片數"] "餅乾代號" 2)
      (get_header_index ["日期", "餅乾代號", "生產片數"] "生產片數" 5)
      (get_header_index ["日期", "餅乾代號", "生產片數"] "預計完成日期" (-1))
      (toOrdinal 2025 1 10 + 2) "" ["2025/1/10", "", "10"] = 10 := by
    norm_num [claimProdContrib, claimCompletionDate, LEAD_TIME_DAYS,
      show get_header_index ["日期", "餅乾代號", "生產片數"] "日期" 0 = 0
        from by decide,
      show get_header_index ["日期", "餅乾代號", "生產片數"] "餅乾代號" 2 = 1
        from by decide,
      show get_header_index ["日期", "餅乾代號", "生產片數"] "生產片數" 5 = 2
        from by decide,
      show get_header_index ["日期", "餅乾代號", "生產片數"] "預計完成日期" (-1)
          = -1 from by decide,
      show getCell ["2025/1/10", "", "10"] 0 = "2025/1/10" from by decide,
      show getCell ["2025/1/10", "", "10"] 2 = "10" from by decide,
      show pyStrip (getCell ["2025/1/10", "", "10"] 1) = "" from by decide,
      show toOrdinal 2025 1 10 = 739261 from by decide,
      show parse_date "2025/1/10" = some 739261 from by decide,
      parse_float_ten]
  rw [hcontrib] at h
  exact absurd h (by norm_num)
